import Mathlib

/-!
Verification of the Blacktop Blackout module/plugin subsystem
(plugin manager, plugin registry, messaging service, client module store).

The definitions below are a shallow embedding of the TypeScript sources:
`MessagingService` (services/messaging.service.ts), `BlacktopPluginManager`
and `PluginRegistry` (services/plugin-manager.service.ts), and the client
module store (web-app/src/stores/module.store.ts).  JavaScript `Map`s are
modelled as association lists with insertion-order preserving `set`
semantics, function references as values with decidable equality,
`Date.now()` / `new Date()` as a natural-number clock threaded through the
state, and thrown exceptions as `Except` results that leave the state
unchanged.
-/

namespace Blacktop

/-! ## Association-list model of JavaScript `Map` -/

/-- `Map.get`: first entry with the given key. -/
def alistFind {β : Type} (k : String) : List (String × β) → Option β
| [] => none
| (k', v) :: rest => if k' = k then some v else alistFind k rest

/-- `Map.set`: replace in place if the key is present, else append. -/
def alistInsert {β : Type} (k : String) (v : β) : List (String × β) → List (String × β)
| [] => [(k, v)]
| (k', v') :: rest => if k' = k then (k, v) :: rest else (k', v') :: alistInsert k v rest

/-- `Map.delete`: remove the entry with the given key. -/
def alistErase {β : Type} (k : String) : List (String × β) → List (String × β)
| [] => []
| (k', v') :: rest => if k' = k then alistErase k rest else (k', v') :: alistErase k rest

theorem alistFind_alistInsert {β : Type} (k k' : String) (v : β) (l : List (String × β)) :
    alistFind k (alistInsert k' v l) = if k' = k then some v else alistFind k l := by
  induction l with
  | nil => simp [alistInsert, alistFind]
  | cons hd tl ih =>
    obtain ⟨a, b⟩ := hd
    by_cases hak : a = k'
    · subst hak
      by_cases hk : a = k <;> simp [alistInsert, alistFind, hk]
    · by_cases hk : a = k
      · subst hk
        have hk'a : ¬ k' = a := fun h => hak h.symm
        simp [alistInsert, hak, alistFind, hk'a]
      · simp [alistInsert, hak, alistFind, hk, ih]

theorem alistFind_alistInsert_self {β : Type} (k : String) (v : β) (l : List (String × β)) :
    alistFind k (alistInsert k v l) = some v := by
  simp [alistFind_alistInsert]

theorem mem_keys_alistInsert {β : Type} (k : String) (v : β) (l : List (String × β)) :
    k ∈ (alistInsert k v l).map Prod.fst := by
  induction l with
  | nil => simp [alistInsert]
  | cons hd tl ih =>
    obtain ⟨a, b⟩ := hd
    by_cases hak : a = k <;> simp [alistInsert, hak, ih]

/-! ## Character/string helpers (substring search and glob matching)

`leadingEq p h` decides whether the character list `p` is an initial
segment of `h`; `searchDrop pat hay` scans `hay` for the first occurrence
of `pat`, returning the remainder after that occurrence.  These model
JavaScript's `String.prototype.includes` and the unanchored
`RegExp.prototype.test` of a regex built from a `*`-glob by
`pattern.replace(/\*/g, '.*')` (the repository only uses globs made of
literal characters and `*`). -/

def leadingEq : List Char → List Char → Bool
| [], _ => true
| _ :: _, [] => false
| a :: ps, b :: hs => a = b && leadingEq ps hs

def searchDrop (pat : List Char) : List Char → Option (List Char)
| [] => if leadingEq pat [] then some [] else none
| c :: t => if leadingEq pat (c :: t) then some ((c :: t).drop pat.length) else searchDrop pat t

/-- `hay.includes(needle)` (substring containment). -/
def strIncludes (hay needle : String) : Bool :=
  (searchDrop needle.toList hay.toList).isSome

/-- Pieces (split on `*`) must occur left to right; this is exactly when the
unanchored regex `p0.*p1.*…` accepts the string. -/
def piecesMatch : List (List Char) → List Char → Bool
| [], _ => true
| p :: ps, hay =>
  match searchDrop p hay with
  | none => false
  | some rest => piecesMatch ps rest

/-- Split a character list on `'*'` (the char-level `String.splitOn "*"`). -/
def splitStar : List Char → List (List Char)
| [] => [[]]
| c :: rest =>
  let r := splitStar rest
  if c = '*' then [] :: r
  else
    match r with
    | [] => [[c]]
    | p :: ps => (c :: p) :: ps

/-- `new RegExp(pattern.replace(/\*/g, '.*')).test(s)` for a `*`-glob. -/
def globTest (pattern s : String) : Bool :=
  piecesMatch (splitStar pattern.toList) s.toList

/-- `toLowerCase()` (ASCII case folding, which covers the repository's data). -/
def strLower (s : String) : String :=
  String.mk (s.toList.map Char.toLower)

/-! ## Messaging service (`MessagingService`, messaging.service.ts)

A message is a bag of payload fields plus the reserved fields the service
itself writes (`_topic`, `_timestamp`) or that `request` writes
(`_responseTopic`, `_responseId`); `none` models an absent field.  A
`Handler` value models one JavaScript function reference: `plain n` is an
ordinary subscriber callback, `patternWrapped pat inner` is the closure
`subscribePattern` builds around handler `inner`, and `requestWrapper inner`
is the anonymous closure `request` subscribes around its `responseHandler`
`inner` (distinct constructors model distinct function references, which is
what `===` compares). -/

structure Msg where
  payload : List (String × Nat)
  topic : Option String := none
  timestamp : Option Nat := none
  responseTopic : Option String := none
  responseId : Option Nat := none
deriving DecidableEq, Repr

inductive Handler where
| plain (n : Nat)
| patternWrapped (pattern : String) (inner : Nat)
| requestWrapper (inner : Nat)
deriving DecidableEq, Repr

/-- `MessageSubscription` record. -/
structure Subscription where
  topic : String
  handler : Handler
  id : Nat
deriving DecidableEq, Repr

/-- State of a `MessagingService` instance.  `listeners` is the Node
`EventEmitter` listener table ((event, listener) pairs in registration
order); `wrapCount` counts how many times `subscribePattern` has replaced
`this.publish` with its wrapper; `time` is the `Date` clock (advanced by
one on each publish); `nextSub` determinizes `generateSubscriptionId`. -/
structure MState where
  subs : List (String × List Subscription)
  listeners : List (String × Handler)
  history : List (String × List Msg)
  nextSub : Nat
  time : Nat
  wrapCount : Nat
deriving DecidableEq, Repr

def emptyMState : MState := ⟨[], [], [], 0, 0, 0⟩

/-- `{...message, _timestamp: new Date(), _topic: topic}`. -/
def enrichMessage (m : Msg) (topic : String) (now : Nat) : Msg :=
  { m with topic := some topic, timestamp := some now }

/-- The `_topic` value `RegExp.test` sees: an absent field is `undefined`,
which JavaScript coerces to the string `"undefined"`. -/
def topicFieldString (m : Msg) : String := m.topic.getD "undefined"

/-- Running one listener: a plain callback is the subscriber itself, the
`request` wrapper forwards to its `responseHandler`, and the
`subscribePattern` wrapper invokes its inner callback only when the regex
built from the glob accepts `message._topic`.  The result is the list of
(base handler, delivered message) calls the invocation produces. -/
def invoke (h : Handler) (m : Msg) : List (Nat × Msg) :=
  match h with
  | .plain n => [(n, m)]
  | .requestWrapper n => [(n, m)]
  | .patternWrapped pat inner =>
    if globTest pat (topicFieldString m) then [(inner, m)] else []

def maxHistoryPerTopic : Nat := 100

/-- `addToHistory` on one topic's buffer: push, then shift once if the
buffer exceeds `maxHistoryPerTopic`. -/
def addToHistoryList (h : List Msg) (m : Msg) : List Msg :=
  let h' := h ++ [m]
  if h'.length > maxHistoryPerTopic then h'.tail else h'

def addToHistory (s : MState) (topic : String) (m : Msg) : MState :=
  { s with history :=
      alistInsert topic (addToHistoryList ((alistFind topic s.history).getD []) m) s.history }

/-- `subscribe(topic, callback)`: allocates a subscription id, records the
subscription in the map, adds an `EventEmitter` listener — and resolves with
`undefined` (`Promise<void>`), modelled as `none`. -/
def subscribe (s : MState) (topic : String) (h : Handler) : MState × Option Nat :=
  let sid := s.nextSub
  let cur := (alistFind topic s.subs).getD []
  ({ s with subs := alistInsert topic (cur ++ [⟨topic, h, sid⟩]) s.subs,
            listeners := s.listeners ++ [(topic, h)],
            nextSub := sid + 1 }, none)

/-- `EventEmitter.off` removes one matching listener. -/
def removeFirstListener (topic : String) (h : Handler) :
    List (String × Handler) → List (String × Handler)
| [] => []
| (t, g) :: rest =>
  if t = topic ∧ g = h then rest else (t, g) :: removeFirstListener topic h rest

/-- `unsubscribe(topic, callback?)`: with a callback, drop that listener and
filter the subscription list (deleting the topic key when it empties); with
no callback, remove all listeners and the topic entry. -/
def unsubscribe (s : MState) (topic : String) (cb : Option Handler) : MState :=
  match cb with
  | some h =>
    let listeners' := removeFirstListener topic h s.listeners
    let subsList := (alistFind topic s.subs).getD []
    let updated := subsList.filter (fun sub => sub.handler ≠ h)
    let subs' := if updated.isEmpty then alistErase topic s.subs
                 else alistInsert topic updated s.subs
    { s with listeners := listeners', subs := subs' }
  | none =>
    { s with listeners := s.listeners.filter (fun p => p.1 ≠ topic),
             subs := alistErase topic s.subs }

def listenersFor (s : MState) (topic : String) : List Handler :=
  s.listeners.filterMap (fun p => if p.1 = topic then some p.2 else none)

/-- The un-overridden `publish`: enrich, record in history, and — when the
topic has map subscribers — `emit` to the `EventEmitter` listeners and then
call every subscription handler directly, each with the enriched message.
Returns the new state and the produced (handler, message) calls. -/
def originalPublish (s : MState) (topic : String) (m : Msg) : MState × List (Nat × Msg) :=
  let enriched := enrichMessage m topic s.time
  let s1 := { addToHistory s topic enriched with time := s.time + 1 }
  let subscribers := (alistFind topic s1.subs).getD []
  if subscribers.isEmpty then (s1, [])
  else
    let emitInvs := (listenersFor s1 topic).flatMap (fun h => invoke h enriched)
    let directInvs := subscribers.flatMap (fun sub => invoke sub.handler enriched)
    (s1, emitInvs ++ directInvs)

/-- One pass of the loop the `subscribePattern` wrapper appends to
`publish`: every `__pattern__`-prefixed subscription key whose glob accepts
the topic gets the *raw* (un-enriched) `message` emitted to its listeners.
(`key.replace('__pattern__','')` strips the leading tag, i.e. drops 11
characters.) -/
def strStarts (pre s : String) : Bool := leadingEq pre.toList s.toList

def strDropChars (n : Nat) (s : String) : String := String.mk (s.toList.drop n)

def patternEmits (s : MState) (topic : String) (m : Msg) : List (Nat × Msg) :=
  ((s.subs.map Prod.fst).filter (fun k => strStarts "__pattern__" k)).flatMap
    (fun patternKey =>
      let patternString := strDropChars 11 patternKey
      if globTest patternString topic then
        (listenersFor s patternKey).flatMap (fun h => invoke h m)
      else [])

def repeatedApp {α : Type} : Nat → List α → List α
| 0, _ => []
| n + 1, l => l ++ repeatedApp n l

/-- The current `publish` after `wrapCount` overrides by `subscribePattern`:
the innermost original publish followed by `wrapCount` identical
pattern-emit passes (each wrapper re-runs the loop on the same raw
message). -/
def publish (s : MState) (topic : String) (m : Msg) : MState × List (Nat × Msg) :=
  let (s1, invs) := originalPublish s topic m
  (s1, invs ++ repeatedApp s1.wrapCount (patternEmits s1 topic m))

/-- `subscribePattern(pattern, callback)`: subscribe the wrapped callback
under `__pattern__<pattern>` and replace `this.publish` with the wrapper. -/
def subscribePattern (s : MState) (pattern : String) (inner : Nat) : MState :=
  let s1 := (subscribe s ("__pattern__" ++ pattern) (Handler.patternWrapped pattern inner)).1
  { s1 with wrapCount := s1.wrapCount + 1 }

def getTopics (s : MState) : List String := s.subs.map Prod.fst

def getSubscriberCount (s : MState) (topic : String) : Nat :=
  ((alistFind topic s.subs).getD []).length

def historyOf (s : MState) (topic : String) : List Msg :=
  (alistFind topic s.history).getD []

def publishMany (s : MState) (evts : List (String × Msg)) : MState :=
  evts.foldl (fun st e => (publish st e.1 e.2).1) s

/-- The synchronous body of `request(topic, message)`: subscribe the
anonymous wrapper around `responseHandler` (reference `rid`) on the
ephemeral response topic, then publish the request message carrying
`_responseTopic`/`_responseId`. -/
def request (s : MState) (topic : String) (m : Msg) (rid : Nat) : MState :=
  let responseTopic := topic ++ ":response:" ++ toString rid
  let s1 := (subscribe s responseTopic (Handler.requestWrapper rid)).1
  (publish s1 topic { m with responseTopic := some responseTopic, responseId := some rid }).1

/-- Settling the `request` promise (reply or timeout): both paths call
`unsubscribe(responseTopic, responseHandler)` with the `responseHandler`
function reference — not the wrapper that was actually subscribed. -/
def requestSettle (s : MState) (topic : String) (rid : Nat) : MState :=
  unsubscribe s (topic ++ ":response:" ++ toString rid) (some (Handler.plain rid))

def requestAfterSettle (s : MState) (topic : String) (m : Msg) (rid : Nat) : MState :=
  requestSettle (request s topic m rid) topic rid

/-- Number of calls delivered to base handler `n`. -/
def countInv (n : Nat) (invs : List (Nat × Msg)) : Nat :=
  (invs.filter (fun p => p.1 == n)).length

/-! ## Plugin manager (`BlacktopPluginManager`, plugin-manager.service.ts)

A `PluginObject` models the object `livePluginManager.require(pluginId)`
hands back: each identity field is `Option String` (`none` = absent, and
JavaScript's `!plugin[prop]` also treats the empty string as missing), and
each lifecycle method slot is `none` when the method is absent or
`some behavior`, where the behavior says whether calling it resolves or
throws.  The TypeScript names `initialize/destroy/enable/disable` are
rendered `initHook/destroyHook/enableHook/disableHook`. -/

inductive HookBehavior where
| ok
| throws (msg : String)
deriving DecidableEq, Repr

structure PluginObject where
  id : Option String := none
  name : Option String := none
  version : Option String := none
  description : Option String := none
  author : Option String := none
  initHook : Option HookBehavior := none
  destroyHook : Option HookBehavior := none
  enableHook : Option HookBehavior := none
  disableHook : Option HookBehavior := none
deriving DecidableEq, Repr

/-- `!plugin[prop]` is false exactly on a present, non-empty string. -/
def truthyStr (o : Option String) : Bool :=
  match o with
  | none => false
  | some s => !s.isEmpty

/-- `validatePluginInterface`: required properties checked in order
(id, name, version, description, author), then required methods in order
(initialize, destroy, enable, disable); `some msg` is the thrown `Error`'s
message, `none` means valid. -/
def validatePluginInterface (p : PluginObject) : Option String :=
  if truthyStr p.id = false then some ("Plugin missing required property: " ++ "id")
  else if truthyStr p.name = false then some ("Plugin missing required property: " ++ "name")
  else if truthyStr p.version = false then some ("Plugin missing required property: " ++ "version")
  else if truthyStr p.description = false then
    some ("Plugin missing required property: " ++ "description")
  else if truthyStr p.author = false then some ("Plugin missing required property: " ++ "author")
  else if p.initHook.isNone then some ("Plugin missing required method: " ++ "initialize")
  else if p.destroyHook.isNone then some ("Plugin missing required method: " ++ "destroy")
  else if p.enableHook.isNone then some ("Plugin missing required method: " ++ "enable")
  else if p.disableHook.isNone then some ("Plugin missing required method: " ++ "disable")
  else none

/-- `createPluginContext(pluginId)` (api facade, config, scoped logger,
private emitter); for the claims only its identity matters. -/
structure PluginCtx where
  ownerId : String
deriving DecidableEq, Repr

structure PMState where
  loadedPlugins : List (String × PluginObject)
  pluginContexts : List (String × PluginCtx)
deriving DecidableEq, Repr

def pmEmptyState : PMState := ⟨[], []⟩

/-- `loadPlugin(pluginId)` given the module the installer resolves:
validate, build a context, `await initialize(context)`, then store the
instance and context.  A thrown error is returned as `.error` with the
state unchanged (the maps are only written after `initialize` succeeds). -/
def loadPlugin (s : PMState) (pluginId : String) (requiredModule : PluginObject) :
    PMState × Except String Unit :=
  match validatePluginInterface requiredModule with
  | some msg => (s, Except.error msg)
  | none =>
    match requiredModule.initHook with
    | some HookBehavior.ok =>
      ({ loadedPlugins := alistInsert pluginId requiredModule s.loadedPlugins,
         pluginContexts := alistInsert pluginId ⟨pluginId⟩ s.pluginContexts }, Except.ok ())
    | some (HookBehavior.throws msg) => (s, Except.error msg)
    | none => (s, Except.error "TypeError: pluginModule.initialize is not a function")

/-- `unloadPlugin(pluginId)`: throw if not loaded; otherwise
`await plugin.destroy()` and only then delete the two map entries.  When
`destroy()` throws, the catch block logs and rethrows, so the deletions are
never reached and the state keeps both entries. -/
def unloadPlugin (s : PMState) (pluginId : String) : PMState × Except String Unit :=
  match alistFind pluginId s.loadedPlugins with
  | none => (s, Except.error ("Plugin " ++ pluginId ++ " is not loaded"))
  | some plugin =>
    match plugin.destroyHook with
    | some HookBehavior.ok =>
      ({ loadedPlugins := alistErase pluginId s.loadedPlugins,
         pluginContexts := alistErase pluginId s.pluginContexts }, Except.ok ())
    | some (HookBehavior.throws msg) => (s, Except.error msg)
    | none => (s, Except.error "TypeError: plugin.destroy is not a function")

def isPluginLoaded (s : PMState) (pluginId : String) : Bool :=
  (alistFind pluginId s.loadedPlugins).isSome

def getLoadedPlugins (s : PMState) : List String :=
  s.loadedPlugins.map Prod.fst

/-- Spec-side: the first member of the required-interface list that the
plugin object is missing (properties before methods, in the source's check
order), or `none` when the object satisfies the contract. -/
def firstMissingMember (p : PluginObject) : Option String :=
  if truthyStr p.id = false then some "id"
  else if truthyStr p.name = false then some "name"
  else if truthyStr p.version = false then some "version"
  else if truthyStr p.description = false then some "description"
  else if truthyStr p.author = false then some "author"
  else if p.initHook.isNone then some "initialize"
  else if p.destroyHook.isNone then some "destroy"
  else if p.enableHook.isNone then some "enable"
  else if p.disableHook.isNone then some "disable"
  else none

/-- The validation error message naming a given missing member. -/
def memberErrorMsg (mem : String) : String :=
  if mem = "id" ∨ mem = "name" ∨ mem = "version" ∨ mem = "description" ∨ mem = "author"
  then "Plugin missing required property: " ++ mem
  else "Plugin missing required method: " ++ mem

/-! ## Plugin registry (`PluginRegistry`, plugin-manager.service.ts) -/

inductive ModuleType where
| backend
| frontendReact
| frontendFlutter
| core
deriving DecidableEq, Repr

structure ModulePricing where
  kind : String
  price : Option Nat := none
  currency : Option String := none
  billingPeriod : Option String := none
deriving DecidableEq, Repr

/-- `ModuleMetadata` (shared-types).  The TypeScript field `type` is
rendered `mtype`; `Date` fields are the natural-number clock. -/
structure ModuleMetadata where
  id : String
  name : String
  mtype : ModuleType
  version : String
  description : String
  author : String
  category : String
  tags : List String
  enabled : Bool
  installed : Bool
  installDate : Option Nat := none
  lastUpdated : Option Nat := none
  size : Nat
  repository : Option String := none
  homepage : Option String := none
  license : String
  screenshots : Option (List String) := none
  pricing : Option ModulePricing := none
deriving DecidableEq, Repr

/-- `Partial<ModuleMetadata>`: a field is `some v` when the update object
carries it, `none` when absent (spread skips it). -/
structure MetadataPatch where
  id : Option String := none
  name : Option String := none
  mtype : Option ModuleType := none
  version : Option String := none
  description : Option String := none
  author : Option String := none
  category : Option String := none
  tags : Option (List String) := none
  enabled : Option Bool := none
  installed : Option Bool := none
  installDate : Option (Option Nat) := none
  lastUpdated : Option (Option Nat) := none
  size : Option Nat := none
  repository : Option (Option String) := none
  homepage : Option (Option String) := none
  license : Option String := none
  screenshots : Option (Option (List String)) := none
  pricing : Option (Option ModulePricing) := none
deriving DecidableEq, Repr

/-- `{...existing, ...updates, lastUpdated: new Date()}`. -/
def applyPatch (m : ModuleMetadata) (u : MetadataPatch) (now : Nat) : ModuleMetadata :=
  { id := u.id.getD m.id
    name := u.name.getD m.name
    mtype := u.mtype.getD m.mtype
    version := u.version.getD m.version
    description := u.description.getD m.description
    author := u.author.getD m.author
    category := u.category.getD m.category
    tags := u.tags.getD m.tags
    enabled := u.enabled.getD m.enabled
    installed := u.installed.getD m.installed
    installDate := u.installDate.getD m.installDate
    lastUpdated := some now
    size := u.size.getD m.size
    repository := u.repository.getD m.repository
    homepage := u.homepage.getD m.homepage
    license := u.license.getD m.license
    screenshots := u.screenshots.getD m.screenshots
    pricing := u.pricing.getD m.pricing }

/-- Registry state: the `plugins: Map<string, ModuleMetadata>`. -/
def Reg : Type := List (String × ModuleMetadata)

def regEmpty : Reg := []

/-- `registerPlugin(metadata)`: `plugins.set(metadata.id, metadata)`. -/
def registerPlugin (r : Reg) (m : ModuleMetadata) : Reg := alistInsert m.id m r

/-- `unregisterPlugin(pluginId)`. -/
def unregisterPlugin (r : Reg) (pluginId : String) : Reg := alistErase pluginId r

/-- `getPluginMetadata(pluginId)`: `plugins.get(pluginId) || null`. -/
def getPluginMetadata (r : Reg) (pluginId : String) : Option ModuleMetadata :=
  alistFind pluginId r

/-- `getAllPlugins()`: `Array.from(plugins.values())`. -/
def getAllPlugins (r : Reg) : List ModuleMetadata := r.map Prod.snd

/-- `searchPlugins(query, type?)`. -/
def searchPlugins (r : Reg) (query : String) (t : Option ModuleType) : List ModuleMetadata :=
  let lowerQuery := strLower query
  (getAllPlugins r).filter (fun plugin =>
    (strIncludes (strLower plugin.name) lowerQuery
      || strIncludes (strLower plugin.description) lowerQuery
      || plugin.tags.any (fun tag => strIncludes (strLower tag) lowerQuery))
    && (match t with
        | none => true
        | some ty => plugin.mtype == ty))

/-- `updatePluginMetadata(pluginId, updates)`. -/
def updatePluginMetadata (r : Reg) (pluginId : String) (u : MetadataPatch) (now : Nat) : Reg :=
  match alistFind pluginId r with
  | none => r
  | some existing => alistInsert pluginId (applyPatch existing u now) r

/-- A registry write operation, for reasoning about call sequences. -/
inductive RegOp where
| register (m : ModuleMetadata)
| update (pluginId : String) (u : MetadataPatch) (now : Nat)
deriving Repr

def applyOp (r : Reg) : RegOp → Reg
| RegOp.register m => registerPlugin r m
| RegOp.update pluginId u now => updatePluginMetadata r pluginId u now

def applyOps (r : Reg) (ops : List RegOp) : Reg := ops.foldl applyOp r

/-- Spec-side last-written value for one id, straight from the claim's
words: `registerPlugin` replaces the entry wholesale, `updatePluginMetadata`
merges the partial update into the existing entry and is a no-op when the
id is absent. -/
def lastWritten (pluginId : String) : List RegOp → Option ModuleMetadata → Option ModuleMetadata
| [], acc => acc
| RegOp.register m :: rest, acc =>
  lastWritten pluginId rest (if m.id = pluginId then some m else acc)
| RegOp.update uid u now :: rest, acc =>
  lastWritten pluginId rest
    (if uid = pluginId then
      (match acc with
       | some prev => some (applyPatch prev u now)
       | none => none)
     else acc)

/-- Spec-side text match for `searchPlugins`: the query occurs
case-insensitively in the name, the description, or at least one tag. -/
def specTextMatch (query : String) (m : ModuleMetadata) : Bool :=
  strIncludes (strLower m.name) (strLower query)
    || strIncludes (strLower m.description) (strLower query)
    || m.tags.any (fun tag => strIncludes (strLower tag) (strLower query))

/-- Spec-side type filter: `t` undefined, or the entry's type equals `t`. -/
def specTypeMatch (t : Option ModuleType) (m : ModuleMetadata) : Bool :=
  match t with
  | none => true
  | some ty => m.mtype == ty

/-! ## Client module store (`useModuleStore`, module.store.ts) -/

structure LoadedModule where
  metadata : ModuleMetadata
  component : Option Nat := none
  routes : Option (List Nat) := none
  isLoading : Bool
  loadError : Option String := none
  lastLoaded : Option Nat := none
deriving DecidableEq, Repr

structure ClientState where
  availableModules : List ModuleMetadata
  loadedModules : List (String × LoadedModule)
deriving DecidableEq, Repr

/-- Outcomes of the external code fetches `loadModule` performs: the remote
Module-Federation fetch and the local dynamic-import fallback (`none` =
that fetch rejects), plus the clock. -/
structure LoaderEnv where
  remote : Option (Nat × Option (List Nat)) := none
  localFallback : Option (Nat × Option (List Nat)) := none
  now : Nat := 0

/-- `loadModule(moduleId)`: look the id up in `availableModules` and return
early (log only) when absent; otherwise write a loading entry, try the
remote bundle then the local fallback, and finish with either a ready entry
or an error entry. -/
def loadModule (env : LoaderEnv) (s : ClientState) (moduleId : String) : ClientState :=
  match s.availableModules.find? (fun m => m.id == moduleId) with
  | none => s
  | some moduleMetadata =>
    let loading : LoadedModule :=
      { metadata := moduleMetadata, isLoading := true, lastLoaded := some env.now }
    let s1 : ClientState :=
      { s with loadedModules := alistInsert moduleId loading s.loadedModules }
    if moduleMetadata.mtype == ModuleType.frontendReact then
      match env.remote with
      | some (comp, rts) =>
        let ready : LoadedModule :=
          { metadata := moduleMetadata, component := some comp, routes := rts,
            isLoading := false, lastLoaded := some env.now }
        { s1 with loadedModules := alistInsert moduleId ready s1.loadedModules }
      | none =>
        match env.localFallback with
        | some (comp, rts) =>
          let ready : LoadedModule :=
            { metadata := moduleMetadata, component := some comp, routes := rts,
              isLoading := false, lastLoaded := some env.now }
          { s1 with loadedModules := alistInsert moduleId ready s1.loadedModules }
        | none =>
          let failed : LoadedModule :=
            { metadata := moduleMetadata, isLoading := false,
              loadError := some ("Failed to load module " ++ moduleId),
              lastLoaded := some env.now }
          { s1 with loadedModules := alistInsert moduleId failed s1.loadedModules }
    else
      let ready : LoadedModule :=
        { metadata := moduleMetadata, isLoading := false, lastLoaded := some env.now }
      { s1 with loadedModules := alistInsert moduleId ready s1.loadedModules }

/-! ## Shared concrete inputs for witnesses and counterexamples -/

/-- A plugin object satisfying the whole required interface except that its
`destroy` method throws. -/
def destroyThrowsPlugin : PluginObject :=
  { id := some "weather", name := some "Weather Plugin", version := some "1.0.0",
    description := some "forecast integration", author := some "acme",
    initHook := some HookBehavior.ok, destroyHook := some (HookBehavior.throws "boom"),
    enableHook := some HookBehavior.ok, disableHook := some HookBehavior.ok }

/-- Manager state in which `destroyThrowsPlugin` is loaded under id
`"weather"`, with its context. -/
def pmLoadedState : PMState :=
  ⟨[("weather", destroyThrowsPlugin)], [("weather", ⟨"weather"⟩)]⟩

/-- A plugin object whose only defect is a missing `destroy` method. -/
def missingDestroyPlugin : PluginObject :=
  { destroyThrowsPlugin with destroyHook := none }

/-- A registered frontend module ("marketplace"). -/
def marketplaceMeta : ModuleMetadata :=
  { id := "marketplace", name := "Module Marketplace", mtype := ModuleType.frontendReact,
    version := "1.0.0", description := "module store", author := "acme",
    category := "core", tags := ["store", "modules"], enabled := true, installed := true,
    size := 10, license := "MIT" }

/-! ## Claim theorems -/

/-- Relates the source's `validatePluginInterface` to the spec-side
"first missing member of the required interface". -/
theorem validate_eq_firstMissing (p : PluginObject) :
    validatePluginInterface p = (firstMissingMember p).map memberErrorMsg := by
  unfold validatePluginInterface firstMissingMember
  by_cases h1 : truthyStr p.id = false
  · simp +decide [h1, memberErrorMsg]
  · by_cases h2 : truthyStr p.name = false
    · simp +decide [h1, h2, memberErrorMsg]
    · by_cases h3 : truthyStr p.version = false
      · simp +decide [h1, h2, h3, memberErrorMsg]
      · by_cases h4 : truthyStr p.description = false
        · simp +decide [h1, h2, h3, h4, memberErrorMsg]
        · by_cases h5 : truthyStr p.author = false
          · simp +decide [h1, h2, h3, h4, h5, memberErrorMsg]
          · by_cases h6 : p.initHook.isNone
            · simp +decide [h1, h2, h3, h4, h5, h6, memberErrorMsg]
            · by_cases h7 : p.destroyHook.isNone
              · simp +decide [h1, h2, h3, h4, h5, h6, h7, memberErrorMsg]
              · by_cases h8 : p.enableHook.isNone
                · simp +decide [h1, h2, h3, h4, h5, h6, h7, h8, memberErrorMsg]
                · by_cases h9 : p.disableHook.isNone
                  · simp +decide [h1, h2, h3, h4, h5, h6, h7, h8, h9, memberErrorMsg]
                  · simp [h1, h2, h3, h4, h5, h6, h7, h8, h9]

/-- C5: a plugin object missing one of the required methods
{initialize, destroy, enable, disable} or required identity fields
{id, name, version, description, author} makes `loadPlugin` fail with a
validation error naming the first missing member, and leaves the manager
state — hence `getLoadedPlugins()` — unchanged. -/
theorem C5_loadPlugin_invalid_interface_rejected (s : PMState) (pluginId : String)
    (p : PluginObject) (mem : String) (hmiss : firstMissingMember p = some mem) :
    (loadPlugin s pluginId p).2 = Except.error (memberErrorMsg mem)
    ∧ (loadPlugin s pluginId p).1 = s
    ∧ getLoadedPlugins (loadPlugin s pluginId p).1 = getLoadedPlugins s := by
  have hv : validatePluginInterface p = some (memberErrorMsg mem) := by
    rw [validate_eq_firstMissing, hmiss]
    rfl
  refine ⟨?_, ?_, ?_⟩ <;> simp [loadPlugin, hv]

/-- C5 witness: loading an object whose first missing member is `destroy`
fails with the message naming `destroy` and leaves the empty manager state
unchanged. -/
theorem C5_witness :
    firstMissingMember missingDestroyPlugin = some "destroy"
    ∧ (loadPlugin pmEmptyState "weather" missingDestroyPlugin).2
        = Except.error (memberErrorMsg "destroy")
    ∧ (loadPlugin pmEmptyState "weather" missingDestroyPlugin).1 = pmEmptyState
    ∧ getLoadedPlugins (loadPlugin pmEmptyState "weather" missingDestroyPlugin).1
        = getLoadedPlugins pmEmptyState :=
  ⟨by decide,
   (C5_loadPlugin_invalid_interface_rejected pmEmptyState "weather" missingDestroyPlugin
      "destroy" (by decide)).1,
   (C5_loadPlugin_invalid_interface_rejected pmEmptyState "weather" missingDestroyPlugin
      "destroy" (by decide)).2.1,
   (C5_loadPlugin_invalid_interface_rejected pmEmptyState "weather" missingDestroyPlugin
      "destroy" (by decide)).2.2⟩

/-- C2: with a loaded plugin whose `destroy()` throws, `unloadPlugin`
propagates the error but — contrary to the claim — never reaches the map
deletions: the plugin is still loaded afterwards and the whole state
(bookkeeping entries included) is retained. -/
theorem C2_unload_with_throwing_destroy_keeps_entries :
    (unloadPlugin pmLoadedState "weather").2 = Except.error "boom"
    ∧ isPluginLoaded (unloadPlugin pmLoadedState "weather").1 "weather" = true
    ∧ (unloadPlugin pmLoadedState "weather").1 = pmLoadedState :=
  ⟨rfl, by decide, by decide⟩

/-- C7 counterexample: `subscribe` allocates subscription id 0 and records
it in the subscriptions map, but resolves with `undefined` (`none`), not
with the allocated id. -/
theorem C7_counterexample :
    (subscribe emptyMState "alerts" (Handler.plain 0)).2 = none
    ∧ (subscribe emptyMState "alerts" (Handler.plain 0)).2 ≠ some 0
    ∧ alistFind "alerts" (subscribe emptyMState "alerts" (Handler.plain 0)).1.subs
        = some [⟨"alerts", Handler.plain 0, 0⟩] :=
  ⟨rfl, by decide, by decide⟩

/-- C7 (amended): `subscribe(topic, handler)` registers the handler —
allocating a subscription id that is recorded in the subscriptions map, and
permitting multiple subscribers per topic (the subscriber count always
grows by one) — but returns void (`Promise<void>`), not the id. -/
theorem C7_subscribe_registers_but_returns_void (s : MState) (topic : String) (h : Handler) :
    (subscribe s topic h).2 = none
    ∧ alistFind topic (subscribe s topic h).1.subs
        = some (((alistFind topic s.subs).getD []) ++ [⟨topic, h, s.nextSub⟩])
    ∧ getSubscriberCount (subscribe s topic h).1 topic = getSubscriberCount s topic + 1 := by
  refine ⟨rfl, ?_, ?_⟩
  · simp [subscribe, alistFind_alistInsert_self]
  · simp [getSubscriberCount, subscribe, alistFind_alistInsert_self]

/-- C8: after `subscribePattern("alert*", handler)`, publishing to the
matching topic `"alerts"` delivers nothing to the handler: the publish
wrapper emits the raw message, whose absent `_topic` field makes the
wrapped callback's regex test fail. -/
theorem C8_pattern_handler_never_invoked :
    globTest "alert*" "alerts" = true
    ∧ countInv 7 (publish (subscribePattern emptyMState "alert*" 7) "alerts"
        { payload := [("x", 1)] }).2 = 0 :=
  ⟨by decide, by decide⟩

/-- C9: when the module id is absent from `availableModules`, the client
store's `loadModule` returns early and the whole state — in particular the
`loadedModules` map — is unchanged (no loading or error entry either). -/
theorem C9_loadModule_absent_id_is_noop (env : LoaderEnv) (s : ClientState) (moduleId : String)
    (habs : ∀ m ∈ s.availableModules, m.id ≠ moduleId) :
    loadModule env s moduleId = s := by
  have hfind : s.availableModules.find? (fun m => m.id == moduleId) = none := by
    refine List.find?_eq_none.mpr (fun m hm => ?_)
    simp [habs m hm]
  simp [loadModule, hfind]

/-- C9 witness: loading `"overwatch"` when only `"marketplace"` is
available leaves the store untouched. -/
theorem C9_witness :
    loadModule {} (⟨[marketplaceMeta], []⟩ : ClientState) "overwatch"
      = (⟨[marketplaceMeta], []⟩ : ClientState) :=
  C9_loadModule_absent_id_is_noop {} ⟨[marketplaceMeta], []⟩ "overwatch" (by decide)

theorem pair_mem_alistInsert_self {β : Type} (k : String) (v : β) (l : List (String × β)) :
    (k, v) ∈ alistInsert k v l := by
  induction l with
  | nil => simp [alistInsert]
  | cons hd tl ih =>
    obtain ⟨a, b⟩ := hd
    by_cases hak : a = k <;> simp [alistInsert, hak, ih]

/-- `publish` only records history and advances the clock; subscriptions,
listeners, the wrap counter and the id counter are untouched. -/
theorem publish_fst (s : MState) (topic : String) (m : Msg) :
    (publish s topic m).1
      = { addToHistory s topic (enrichMessage m topic s.time) with time := s.time + 1 } := by
  unfold publish originalPublish
  dsimp only
  split <;> rfl

/-- C10: after `request`'s promise settles (reply or timeout), the
subscription `request` registered on the ephemeral response topic is still
present — `getSubscriberCount(responseTopic)` is 1 and the topic is still
listed — because `unsubscribe` is called with the `responseHandler`
reference rather than the anonymous wrapper that was subscribed. -/
theorem C10_request_subscription_leaks (s : MState) (topic : String) (m : Msg) (rid : Nat)
    (hfresh : alistFind (topic ++ ":response:" ++ toString rid) s.subs = none) :
    getSubscriberCount (requestAfterSettle s topic m rid)
        (topic ++ ":response:" ++ toString rid) = 1
    ∧ (topic ++ ":response:" ++ toString rid)
        ∈ getTopics (requestAfterSettle s topic m rid) := by
  set rt := topic ++ ":response:" ++ toString rid with hrt
  unfold requestAfterSettle requestSettle request
  rw [publish_fst]
  simp only [subscribe, addToHistory]
  rw [← hrt]
  simp only [unsubscribe, hfresh]
  constructor
  · simp [alistFind_alistInsert_self, List.filter, getSubscriberCount]
  · simp [alistFind_alistInsert_self, List.filter, getTopics]
    exact ⟨_, pair_mem_alistInsert_self _ _ _⟩

/-- C10 witness: a concrete `request` on topic `"cmd"` from the empty
service leaves one subscriber on `"cmd:response:5"` after settling. -/
theorem C10_witness :
    getSubscriberCount (requestAfterSettle emptyMState "cmd" { payload := [] } 5)
        ("cmd" ++ ":response:" ++ toString 5) = 1
    ∧ ("cmd" ++ ":response:" ++ toString 5)
        ∈ getTopics (requestAfterSettle emptyMState "cmd" { payload := [] } 5) :=
  C10_request_subscription_leaks emptyMState "cmd" { payload := [] } 5 rfl

/-- With exactly two fresh plain subscribers on a topic, one publish
produces the `emit` deliveries followed by the direct handler calls: each
handler receives the enriched message twice. -/
theorem publish_two_subscribers_invocations (s : MState) (topic : String) (a b : Nat) (m : Msg)
    (hsub : alistFind topic s.subs = none)
    (hlis : listenersFor s topic = [])
    (hwrap : s.wrapCount = 0) :
    (publish ((subscribe ((subscribe s topic (Handler.plain a)).1) topic
        (Handler.plain b)).1) topic m).2
      = [(a, enrichMessage m topic s.time), (b, enrichMessage m topic s.time),
         (a, enrichMessage m topic s.time), (b, enrichMessage m topic s.time)] := by
  unfold publish originalPublish
  simp only [subscribe, addToHistory]
  simp only [hsub, Option.getD_none, List.nil_append, alistFind_alistInsert_self,
    Option.getD_some]
  simp only [listenersFor] at hlis
  simp [listenersFor, List.filterMap_append, invoke, hwrap, repeatedApp, hlis]

/-- C1 counterexample: in the spec's own scenario (handlers A and B
subscribed to `"alerts"`, then `publish("alerts", {x:1})`) each handler is
invoked twice, not exactly once — `subscribe` registers every callback both
as an `EventEmitter` listener and in the subscriptions map, and `publish`
both emits and calls the handlers directly. -/
theorem C1_counterexample :
    countInv 0 (publish ((subscribe ((subscribe emptyMState "alerts"
        (Handler.plain 0)).1) "alerts" (Handler.plain 1)).1) "alerts"
        { payload := [("x", 1)] }).2 = 2
    ∧ countInv 0 (publish ((subscribe ((subscribe emptyMState "alerts"
        (Handler.plain 0)).1) "alerts" (Handler.plain 1)).1) "alerts"
        { payload := [("x", 1)] }).2 ≠ 1
    ∧ countInv 1 (publish ((subscribe ((subscribe emptyMState "alerts"
        (Handler.plain 0)).1) "alerts" (Handler.plain 1)).1) "alerts"
        { payload := [("x", 1)] }).2 = 2 :=
  ⟨by decide, by decide, by decide⟩

/-- C1 (amended): for two distinct handlers A and B subscribed to a fresh
topic, a single `publish(topic, msg)` invokes each of A and B exactly twice
(once via the `EventEmitter` emit and once via the direct handler call),
every time with the enriched message that carries the original payload
fields plus `_topic = topic` and a `_timestamp`. -/
theorem C1_each_subscriber_invoked_twice (s : MState) (topic : String) (a b : Nat) (m : Msg)
    (hab : a ≠ b)
    (hsub : alistFind topic s.subs = none)
    (hlis : listenersFor s topic = [])
    (hwrap : s.wrapCount = 0) :
    countInv a (publish ((subscribe ((subscribe s topic (Handler.plain a)).1) topic
        (Handler.plain b)).1) topic m).2 = 2
    ∧ countInv b (publish ((subscribe ((subscribe s topic (Handler.plain a)).1) topic
        (Handler.plain b)).1) topic m).2 = 2
    ∧ (∀ p ∈ (publish ((subscribe ((subscribe s topic (Handler.plain a)).1) topic
        (Handler.plain b)).1) topic m).2, p.2 = enrichMessage m topic s.time)
    ∧ (enrichMessage m topic s.time).payload = m.payload
    ∧ (enrichMessage m topic s.time).topic = some topic
    ∧ (enrichMessage m topic s.time).timestamp = some s.time := by
  rw [publish_two_subscribers_invocations s topic a b m hsub hlis hwrap]
  have hba : (b == a) = false := by
    simp only [beq_eq_false_iff_ne, ne_eq]
    exact fun h => hab h.symm
  have hab' : (a == b) = false := by
    simp only [beq_eq_false_iff_ne, ne_eq]
    exact hab
  refine ⟨?_, ?_, ?_, rfl, rfl, rfl⟩
  · simp [countInv, List.filter, hba]
  · simp [countInv, List.filter, hab']
  · intro p hp
    simp only [List.mem_cons, List.not_mem_nil, or_false] at hp
    rcases hp with h | h | h | h <;> rw [h]

/-- C1 witness for the amended claim, at the spec's scenario. -/
theorem C1_witness :
    countInv 0 (publish ((subscribe ((subscribe emptyMState "alerts"
        (Handler.plain 0)).1) "alerts" (Handler.plain 1)).1) "alerts"
        { payload := [("x", 1)] }).2 = 2
    ∧ countInv 1 (publish ((subscribe ((subscribe emptyMState "alerts"
        (Handler.plain 0)).1) "alerts" (Handler.plain 1)).1) "alerts"
        { payload := [("x", 1)] }).2 = 2
    ∧ (∀ p ∈ (publish ((subscribe ((subscribe emptyMState "alerts"
        (Handler.plain 0)).1) "alerts" (Handler.plain 1)).1) "alerts"
        { payload := [("x", 1)] }).2,
          p.2 = enrichMessage { payload := [("x", 1)] } "alerts" emptyMState.time)
    ∧ (enrichMessage { payload := [("x", 1)] } "alerts" emptyMState.time).payload
        = ({ payload := [("x", 1)] } : Msg).payload
    ∧ (enrichMessage { payload := [("x", 1)] } "alerts" emptyMState.time).topic = some "alerts"
    ∧ (enrichMessage { payload := [("x", 1)] } "alerts" emptyMState.time).timestamp
        = some emptyMState.time :=
  C1_each_subscriber_invoked_twice emptyMState "alerts" 0 1 { payload := [("x", 1)] }
    (by decide) rfl rfl rfl

theorem getPluginMetadata_applyOps (ops : List RegOp) :
    ∀ (r : Reg) (pluginId : String),
      getPluginMetadata (applyOps r ops) pluginId
        = lastWritten pluginId ops (getPluginMetadata r pluginId) := by
  induction ops with
  | nil => intro r pid; rfl
  | cons op rest ih =>
    intro r pid
    cases op with
    | register m =>
      rw [show applyOps r (RegOp.register m :: rest)
            = applyOps (registerPlugin r m) rest from rfl, ih]
      simp only [lastWritten]
      congr 1
      simp [getPluginMetadata, registerPlugin, alistFind_alistInsert]
    | update uid u now =>
      rw [show applyOps r (RegOp.update uid u now :: rest)
            = applyOps (updatePluginMetadata r uid u now) rest from rfl, ih]
      simp only [lastWritten]
      congr 1
      unfold updatePluginMetadata getPluginMetadata
      cases hf : alistFind uid r with
      | none =>
        by_cases h : uid = pid
        · subst h; simp [hf]
        · simp [h]
      | some ex =>
        rw [alistFind_alistInsert]
        by_cases h : uid = pid
        · subst h; simp [hf]
        · simp [h]

/-- C3: over any sequence of `registerPlugin`/`updatePluginMetadata` calls
starting from the empty registry, `getPluginMetadata(id)` returns exactly
the last value written for that id — `registerPlugin` replaces the prior
entry wholesale, and `updatePluginMetadata` merges the partial update into
the existing entry (and stamps `lastUpdated`), doing nothing when the id is
absent. -/
theorem C3_getPluginMetadata_last_write (ops : List RegOp) (pluginId : String) :
    getPluginMetadata (applyOps regEmpty ops) pluginId = lastWritten pluginId ops none :=
  getPluginMetadata_applyOps ops regEmpty pluginId

/-- C4: `searchPlugins(q, t)` returns exactly the registered entries whose
name, description, or at least one tag contains `q` case-insensitively, and
whose type equals `t` when `t` is given. -/
theorem C4_searchPlugins_characterization (r : Reg) (query : String) (t : Option ModuleType)
    (m : ModuleMetadata) :
    m ∈ searchPlugins r query t
      ↔ m ∈ getAllPlugins r ∧ specTextMatch query m = true ∧ specTypeMatch t m = true := by
  simp only [searchPlugins, specTextMatch, specTypeMatch, List.mem_filter,
    Bool.and_eq_true, Bool.or_eq_true]

theorem addToHistoryList_drop (A : List Msg) (m : Msg) :
    addToHistoryList (A.drop (A.length - maxHistoryPerTopic)) m
      = (A ++ [m]).drop ((A.length + 1) - maxHistoryPerTopic) := by
  unfold addToHistoryList maxHistoryPerTopic
  by_cases h : A.length + 1 ≤ 100
  · have h0 : A.length - 100 = 0 := by omega
    have h1 : A.length + 1 - 100 = 0 := by omega
    have hcond : ¬ ((A.drop 0 ++ [m]).length > 100) := by
      simp only [List.drop_zero, List.length_append, List.length_singleton]
      omega
    simp only [h0, h1, List.drop_zero] at hcond ⊢
    rw [if_neg hcond]
  · have hk : A.length - 100 ≤ A.length := by omega
    have happ : A.drop (A.length - 100) ++ [m] = (A ++ [m]).drop (A.length - 100) :=
      (List.drop_append_of_le_length hk).symm
    have hlen : (A.drop (A.length - 100) ++ [m]).length = 101 := by
      simp only [List.length_append, List.length_singleton, List.length_drop]
      omega
    have hcond : (A.drop (A.length - 100) ++ [m]).length > 100 := by omega
    rw [if_pos hcond, happ, List.tail_drop]
    congr 1
    omega

theorem foldl_addToHistoryList (ms : List Msg) :
    ∀ A : List Msg,
      List.foldl addToHistoryList (A.drop (A.length - maxHistoryPerTopic)) ms
        = (A ++ ms).drop ((A ++ ms).length - maxHistoryPerTopic) := by
  induction ms with
  | nil => intro A; simp
  | cons m rest ih =>
    intro A
    rw [List.foldl_cons, addToHistoryList_drop]
    have hrec := ih (A ++ [m])
    simp only [List.length_append, List.length_singleton] at hrec ⊢
    rw [hrec]
    simp only [List.append_assoc, List.singleton_append, List.length_cons]
    congr 1
    omega

theorem foldl_addToHistoryList_nil (ms : List Msg) :
    List.foldl addToHistoryList [] ms = ms.drop (ms.length - maxHistoryPerTopic) := by
  have h := foldl_addToHistoryList ms []
  simpa using h

/-- The messages a publish sequence enriches and appends for one topic, had
the per-topic buffer been unbounded (the clock advances one per publish,
matching `publish`). -/
def allEnriched (t0 : Nat) : List (String × Msg) → String → List Msg
| [], _ => []
| (tp', m) :: rest, tp =>
  (if tp' = tp then [enrichMessage m tp' t0] else []) ++ allEnriched (t0 + 1) rest tp

theorem publish_history (s : MState) (t tp : String) (m : Msg) :
    historyOf (publish s t m).1 tp
      = if t = tp then addToHistoryList (historyOf s tp) (enrichMessage m t s.time)
        else historyOf s tp := by
  rw [publish_fst]
  simp only [addToHistory, historyOf]
  rw [alistFind_alistInsert]
  by_cases h : t = tp
  · subst h; simp
  · simp [h]

theorem publishMany_history (evts : List (String × Msg)) :
    ∀ (s : MState) (tp : String),
      historyOf (publishMany s evts) tp
        = List.foldl addToHistoryList (historyOf s tp) (allEnriched s.time evts tp) := by
  induction evts with
  | nil => intro s tp; rfl
  | cons e rest ih =>
    intro s tp
    obtain ⟨t, m⟩ := e
    rw [show publishMany s ((t, m) :: rest) = publishMany (publish s t m).1 rest from rfl, ih]
    have htime : (publish s t m).1.time = s.time + 1 := by rw [publish_fst]
    rw [htime, publish_history]
    simp only [allEnriched, List.foldl_append]
    by_cases h : t = tp
    · subst h; simp
    · simp [h]

/-- C6: over any sequence of publishes from a fresh service, every topic's
history holds at most `maxHistoryPerTopic = 100` messages, and it is
exactly the 100-suffix of the full enriched message sequence for that topic
— the oldest entries are evicted first and FIFO order is preserved among
the retained ones. -/
theorem C6_history_bounded_fifo (evts : List (String × Msg)) (tp : String) :
    maxHistoryPerTopic = 100
    ∧ (historyOf (publishMany emptyMState evts) tp).length ≤ maxHistoryPerTopic
    ∧ historyOf (publishMany emptyMState evts) tp
        = (allEnriched 0 evts tp).drop ((allEnriched 0 evts tp).length - maxHistoryPerTopic) := by
  have h := publishMany_history evts emptyMState tp
  have h0 : historyOf emptyMState tp = [] := rfl
  have ht : emptyMState.time = 0 := rfl
  rw [h0, ht, foldl_addToHistoryList_nil] at h
  refine ⟨rfl, ?_, h⟩
  rw [h, List.length_drop]
  have hc : maxHistoryPerTopic = 100 := rfl
  omega

end Blacktop
